import Mathlib

/-!
Verification of the sLIF spiking-cell core (ngclearn
`components/neurons/spiking/sLIFCell.py`).

The four pure per-step functions (`update_times`, `apply_surrogate_dfx`,
`modify_current`, `run_cell`) and the stateful `SLIFCell` operations
(`advance_state`, `reset`, `save`, `load`) are embedded shallowly.
Arrays of shape (batch_size, n_units) become functions
`Fin b → Fin n → R` over a linear ordered field `R`; arithmetic-only code
is generic in `R` (instantiable at `ℚ` for computation), while the
surrogate-derivative function, which uses the exponential, lives over `ℝ`.
-/

namespace SLIF

/-- Arrays of shape (batch_size, n_units). -/
abbrev Mat (b n : ℕ) (R : Type) := Fin b → Fin n → R

variable {b n : ℕ} {R : Type} [LinearOrderedField R]

/-- Source `update_times(t, s, tols)` (lines 6-22):
`_tols = (1. - s) * tols + (s * t)`. -/
def update_times (t : R) (s tols : Mat b n R) : Mat b n R :=
  fun i k => (1 - s i k) * tols i k + s i k * t

/-- Source `modify_current(j, spikes, inh_weights, R_m, inh_R)` (lines 52-83):
`_j = j * R_m`; if `inh_R > 0.` then `_j = _j - (matmul(spikes, inh_weights) * inh_R)`. -/
def modify_current (j spikes : Mat b n R) (inh_weights : Fin n → Fin n → R)
    (R_m inh_R : R) : Mat b n R :=
  if inh_R > 0 then
    fun i k => j i k * R_m - (∑ m, spikes i m * inh_weights m k) * inh_R
  else
    fun i k => j i k * R_m

/-- The four arrays returned by one integrator step, in source order:
`return new_voltage, spikes, new_thr, _rfr` (line 140). -/
structure CellStep (b n : ℕ) (R : Type) where
  voltage : Mat b n R
  spikes : Mat b n R
  threshold : Mat b n R
  refract : Mat b n R

/-- Source `run_cell(dt, j, v, v_thr, tau_m, rfr, refract_T, thrGain, thrLeak,
rho_b, sticky_spikes, v_min)` (lines 85-140).  `0.025 = 1/40` and the floats
are exact decimal fractions, represented exactly in `R`. -/
def run_cell (dt : R) (j v v_thr : Mat b n R) (tau_m : R) (rfr : Mat b n R)
    (refract_T thrGain thrLeak rho_b : R) (sticky_spikes : Bool)
    (v_min : Option R) : CellStep b n R :=
  -- line 121: mask = (rfr >= refract_T).astype(float32)
  let mask : Mat b n R := fun i k => if rfr i k ≥ refract_T then 1 else 0
  -- line 122: new_voltage = (v + (-v + j) * (dt / tau_m)) * mask
  let v1 : Mat b n R := fun i k => (v i k + (-(v i k) + j i k) * (dt / tau_m)) * mask i k
  -- lines 123-124: if v_min is not None: new_voltage = maximum(v_min, new_voltage)
  let v2 : Mat b n R := fun i k =>
    match v_min with
    | some vm => max vm (v1 i k)
    | none => v1 i k
  -- line 126: spikes = where(new_voltage > v_thr, 1, 0)
  let spikes : Mat b n R := fun i k => if v2 i k > v_thr i k then 1 else 0
  -- line 127: new_voltage = (1. - spikes) * new_voltage
  let v3 : Mat b n R := fun i k => (1 - spikes i k) * v2 i k
  -- lines 129-135: threshold update, two mutually exclusive branches
  let new_thr : Mat b n R := fun i k =>
    if rho_b > 0 then
      max (v_thr i k + ((∑ m, spikes i m) - 1) * rho_b) (1 / 40)
    else
      v_thr i k + spikes i k * thrGain - v_thr i k * thrLeak
  -- line 137: _rfr = (rfr + dt) * (1. - spikes)
  let rfr2 : Mat b n R := fun i k => (rfr i k + dt) * (1 - spikes i k)
  -- lines 138-139: if sticky_spikes: spikes = spikes * mask + (1. - mask)
  let out_s : Mat b n R := fun i k =>
    if sticky_spikes then spikes i k * mask i k + (1 - mask i k) else spikes i k
  ⟨v3, out_s, new_thr, rfr2⟩

/-- A sequence of integrator steps, threading voltage, threshold and
refractory state, with one current array per step. -/
def run_cell_seq (dt tau_m refract_T thrGain thrLeak rho_b : R)
    (sticky_spikes : Bool) (v_min : Option R) (js : List (Mat b n R))
    (v thr rfr : Mat b n R) : Mat b n R × Mat b n R × Mat b n R :=
  match js with
  | [] => (v, thr, rfr)
  | j :: rest =>
    let r := run_cell dt j v thr tau_m rfr refract_T thrGain thrLeak
      rho_b sticky_spikes v_min
    run_cell_seq dt tau_m refract_T thrGain thrLeak rho_b sticky_spikes v_min
      rest r.voltage r.threshold r.refract

/-- Source `apply_surrogate_dfx(j, c1=0.82, c2=0.08)` (lines 24-50).
Uses the real exponential; `mask = (j > 0.)`, `dj = j * c2`,
`cosh_j = (exp(dj) + exp(-dj)) / 2`, `sech_j = 1 / cosh_j`,
returns `sech_j * (c1 * c2) * mask`. -/
noncomputable def apply_surrogate_dfx (j : Mat b n ℝ) (c1 c2 : ℝ) : Mat b n ℝ :=
  fun i k =>
    let mask : ℝ := if j i k > 0 then 1 else 0
    let dj : ℝ := j i k * c2
    let cosh_j : ℝ := (Real.exp dj + Real.exp (-dj)) / 2
    let sech_j : ℝ := 1 / cosh_j
    sech_j * (c1 * c2) * mask

/-- Configuration of an `SLIFCell`, fixed at construction (lines 288-333). -/
structure SLIFParams (n : ℕ) (R : Type) where
  tau_m : R
  R_m : R
  refract_T : R
  thrGain : R
  thrLeak : R
  rho_b : R
  inh_R : R
  inh_weights : Fin n → Fin n → R
  thr_persist : Bool
  sticky_spikes : Bool

/-- Line 302 of the constructor: `self.v_min = -3.` — hardcoded, with no
constructor parameter exposing it. -/
def v_min_init : ℝ := -3

/-- The per-cell mutable compartments of an `SLIFCell`: voltage, refractory
counters, current, surrogate, time-of-last-spike, spikes, threshold, plus the
frozen baseline threshold `threshold0`.  `current` and `surrogate` are
`Option`s because `reset` clears them to `None` (lines 360-361). -/
structure SLIFState (b n : ℕ) (R : Type) where
  voltage : Mat b n R
  refract : Mat b n R
  current : Option (Mat b n R)
  surrogate : Option (Mat b n R)
  tols : Mat b n R
  spikes : Mat b n R
  threshold : Mat b n R
  threshold0 : Mat b n R

/-- Source `SLIFCell.advance_state(t, dt)` (lines 338-355), for a state whose
spikes/refract compartments are already initialized (as `reset` guarantees):
modulate the incoming current, store it and the surrogate, run one
`run_cell` step with the constructor's hardcoded `v_min = -3.`, and update
the time-of-last-spike from the (possibly sticky-overridden) spikes. -/
noncomputable def advance_state (p : SLIFParams n ℝ) (t dt : ℝ)
    (j_in : Mat b n ℝ) (s : SLIFState b n ℝ) : SLIFState b n ℝ :=
  let j_curr := modify_current j_in s.spikes p.inh_weights p.R_m p.inh_R
  let r := run_cell dt j_curr s.voltage s.threshold p.tau_m s.refract
    p.refract_T p.thrGain p.thrLeak p.rho_b p.sticky_spikes (some v_min_init)
  { voltage := r.voltage
    refract := r.refract
    current := some j_curr
    surrogate := some (apply_surrogate_dfx j_curr 0.82 0.08)
    tols := update_times t r.spikes s.tols
    spikes := r.spikes
    threshold := r.threshold
    threshold0 := s.threshold0 }

/-- Source `SLIFCell.reset()` (lines 357-365): zero voltage, tols and spikes,
set refractory to `refract_T`, clear current and surrogate, and restore the
threshold to the frozen baseline unless `thr_persist`. -/
def reset (p : SLIFParams n R) (s : SLIFState b n R) : SLIFState b n R :=
  { voltage := fun _ _ => 0
    refract := fun _ _ => 0 + p.refract_T
    current := none
    surrogate := none
    tols := fun _ _ => 0
    spikes := fun _ _ => 0
    threshold := if p.thr_persist then s.threshold else s.threshold0
    threshold0 := s.threshold0 }

/-- The array `SLIFCell.save` writes (lines 367-372): the baseline threshold
when thresholds are non-persistent, else the live adapted threshold. -/
def save_value (p : SLIFParams n R) (s : SLIFState b n R) : Mat b n R :=
  if p.thr_persist then s.threshold else s.threshold0

/-- Source `SLIFCell.save(directory)` (lines 367-372).  A directory is
modelled as a map from file keys (the cell's name) to saved arrays; `save`
writes `save_value` under the cell's name. -/
def save (store : String → Option (Mat b n R)) (name : String)
    (p : SLIFParams n R) (s : SLIFState b n R) :
    String → Option (Mat b n R) :=
  fun key => if key = name then some (save_value p s) else store key

/-- Source `SLIFCell.load(directory)` (lines 374-378): read the array stored
under the cell's name, set it as the live threshold, and re-freeze it as the
baseline (`self.threshold0 = self.threshold + 0`).  A missing file is a
propagated error, modelled by `Option`. -/
def load (store : String → Option (Mat b n R)) (name : String)
    (s : SLIFState b n R) : Option (SLIFState b n R) :=
  (store name).map fun arr => { s with threshold := arr, threshold0 := arr }

/-- The binary integration mask of one step (line 121): 1 exactly where
`rfr >= refract_T` (inclusive), 0 elsewhere. -/
def step_mask (rfr : Mat b n R) (refract_T : R) : Mat b n R :=
  fun i k => if rfr i k ≥ refract_T then 1 else 0

/-- The refractory-gated forward-Euler voltage update of one step
(line 122), before any flooring. -/
def step_euler (dt : R) (j v : Mat b n R) (tau_m : R) (rfr : Mat b n R)
    (refract_T : R) : Mat b n R :=
  fun i k =>
    (v i k + (-(v i k) + j i k) * (dt / tau_m)) * step_mask rfr refract_T i k

/-- The voltage after the optional `v_min` floor (lines 123-124). -/
def step_floored (dt : R) (j v : Mat b n R) (tau_m : R) (rfr : Mat b n R)
    (refract_T : R) (v_min : Option R) : Mat b n R :=
  fun i k =>
    match v_min with
    | some vm => max vm (step_euler dt j v tau_m rfr refract_T i k)
    | none => step_euler dt j v tau_m rfr refract_T i k

/-- The natural (pre-sticky-override) spike decision of one step (line 126):
1 exactly where the floored voltage strictly exceeds the threshold. -/
def step_spike (dt : R) (j v v_thr : Mat b n R) (tau_m : R) (rfr : Mat b n R)
    (refract_T : R) (v_min : Option R) : Mat b n R :=
  fun i k =>
    if step_floored dt j v tau_m rfr refract_T v_min i k > v_thr i k
    then 1 else 0

/-- C2: one integrator step computes, in order, the inclusive refractory mask,
the masked Euler voltage update, the optional `v_min` floor, the strict
spike comparison, and the hyperpolarization `v_new := (1-s)*v_new`, so the
returned voltage is exactly 0 on spiking units and the floored Euler value on
non-spiking units, and (absent the sticky override) the returned spikes are
the natural strict-comparison spikes. -/
theorem C2_integrator_step (dt : R) (j v v_thr : Mat b n R) (tau_m : R)
    (rfr : Mat b n R) (refract_T thrGain thrLeak rho_b : R)
    (sticky_spikes : Bool) (v_min : Option R) (i : Fin b) (k : Fin n) :
    (run_cell dt j v v_thr tau_m rfr refract_T thrGain thrLeak rho_b
        sticky_spikes v_min).voltage i k
      = (1 - step_spike dt j v v_thr tau_m rfr refract_T v_min i k)
          * step_floored dt j v tau_m rfr refract_T v_min i k ∧
    (run_cell dt j v v_thr tau_m rfr refract_T thrGain thrLeak rho_b
        false v_min).spikes i k
      = step_spike dt j v v_thr tau_m rfr refract_T v_min i k ∧
    (run_cell dt j v v_thr tau_m rfr refract_T thrGain thrLeak rho_b
        sticky_spikes v_min).voltage i k
      = (if step_floored dt j v tau_m rfr refract_T v_min i k > v_thr i k
         then 0
         else step_floored dt j v tau_m rfr refract_T v_min i k) := by
  refine ⟨rfl, rfl, ?_⟩
  by_cases h : step_floored dt j v tau_m rfr refract_T v_min i k > v_thr i k
  · show (1 - step_spike dt j v v_thr tau_m rfr refract_T v_min i k)
        * step_floored dt j v tau_m rfr refract_T v_min i k = _
    simp [step_spike, h]
  · show (1 - step_spike dt j v v_thr tau_m rfr refract_T v_min i k)
        * step_floored dt j v tau_m rfr refract_T v_min i k = _
    simp [step_spike, h]

/-- C5: with `sticky_spikes = true`, every unit whose incoming refractory
counter is below `refract_T` reports spike value 1, overriding the natural
decision, while units at or above `refract_T` keep the natural spike value. -/
theorem C5_sticky_override (dt : R) (j v v_thr : Mat b n R) (tau_m : R)
    (rfr : Mat b n R) (refract_T thrGain thrLeak rho_b : R) (v_min : Option R)
    (i : Fin b) (k : Fin n) :
    (run_cell dt j v v_thr tau_m rfr refract_T thrGain thrLeak rho_b
        true v_min).spikes i k
      = if rfr i k ≥ refract_T
        then (run_cell dt j v v_thr tau_m rfr refract_T thrGain thrLeak rho_b
          false v_min).spikes i k
        else 1 := by
  by_cases h : rfr i k ≥ refract_T
  · simp [run_cell, h]
  · simp [run_cell, h]

/-- C8: the current-modulation function returns `j * R_m` when
`inh_R <= 0`, and `j*R_m - (spikes · inh_weights) * inh_R` when `inh_R > 0`. -/
theorem C8_modify_current_spec (j spikes : Mat b n R)
    (inh_weights : Fin n → Fin n → R) (R_m inh_R : R) (i : Fin b) (k : Fin n) :
    modify_current j spikes inh_weights R_m inh_R i k
      = if inh_R > 0
        then j i k * R_m - (∑ m, spikes i m * inh_weights m k) * inh_R
        else j i k * R_m := by
  by_cases h : inh_R > 0 <;> simp [modify_current, h]

/-- C9: reset is idempotent — calling it twice yields the same state as
calling it once, for either value of `thr_persist`. -/
theorem C9_reset_idempotent (p : SLIFParams n R) (s : SLIFState b n R) :
    reset p (reset p s) = reset p s := by
  cases hp : p.thr_persist <;> simp [reset, hp]

/-- C10: saving and then loading under the same name restores a threshold
array equal to the saved one, and re-freezes it as the new baseline. -/
theorem C10_save_load_roundtrip (store : String → Option (Mat b n R))
    (name : String) (p : SLIFParams n R) (s s2 : SLIFState b n R) :
    load (save store name p s) name s2
      = some { s2 with threshold := save_value p s
                       threshold0 := save_value p s } := by
  simp [load, save]

/-- Single-step threshold floor in sparsity mode: the returned threshold is a
`max` against `1/40 = 0.025`, hence at least `0.025`. -/
theorem run_cell_thr_floor (dt : R) (j v v_thr : Mat b n R) (tau_m : R)
    (rfr : Mat b n R) (refract_T thrGain thrLeak rho_b : R)
    (sticky_spikes : Bool) (v_min : Option R) (hrho : 0 < rho_b)
    (i : Fin b) (k : Fin n) :
    1 / 40 ≤ (run_cell dt j v v_thr tau_m rfr refract_T thrGain thrLeak rho_b
        sticky_spikes v_min).threshold i k := by
  have h : (run_cell dt j v v_thr tau_m rfr refract_T thrGain thrLeak rho_b
        sticky_spikes v_min).threshold i k
      = if rho_b > 0
        then max (v_thr i k
          + ((∑ m, step_spike dt j v v_thr tau_m rfr refract_T v_min i m) - 1)
            * rho_b) (1 / 40)
        else v_thr i k
          + step_spike dt j v v_thr tau_m rfr refract_T v_min i k * thrGain
          - v_thr i k * thrLeak := rfl
  rw [h, if_pos hrho]
  exact le_max_right _ _

/-- Any nonempty sequence of sparsity-mode steps ends with a threshold at
or above `1/40 = 0.025`, whatever the starting state. -/
theorem run_cell_seq_thr_floor (dt tau_m refract_T thrGain thrLeak rho_b : R)
    (sticky_spikes : Bool) (v_min : Option R) (hrho : 0 < rho_b)
    (js : List (Mat b n R)) (i : Fin b) (k : Fin n) :
    ∀ v0 thr0 rfr0 : Mat b n R, js ≠ [] →
      1 / 40 ≤ (run_cell_seq dt tau_m refract_T thrGain thrLeak rho_b
          sticky_spikes v_min js v0 thr0 rfr0).2.1 i k := by
  induction js with
  | nil => exact fun v0 thr0 rfr0 h => absurd rfl h
  | cons j rest ih =>
    intro v0 thr0 rfr0 _
    have hstep : run_cell_seq dt tau_m refract_T thrGain thrLeak rho_b
          sticky_spikes v_min (j :: rest) v0 thr0 rfr0
        = run_cell_seq dt tau_m refract_T thrGain thrLeak rho_b
            sticky_spikes v_min rest
            (run_cell dt j v0 thr0 tau_m rfr0 refract_T thrGain thrLeak rho_b
              sticky_spikes v_min).voltage
            (run_cell dt j v0 thr0 tau_m rfr0 refract_T thrGain thrLeak rho_b
              sticky_spikes v_min).threshold
            (run_cell dt j v0 thr0 tau_m rfr0 refract_T thrGain thrLeak rho_b
              sticky_spikes v_min).refract := rfl
    rw [hstep]
    cases rest with
    | nil =>
      exact run_cell_thr_floor dt j v0 thr0 tau_m rfr0 refract_T thrGain
        thrLeak rho_b sticky_spikes v_min hrho i k
    | cons j2 rest2 =>
      exact ih _ _ _ (List.cons_ne_nil _ _)

/-- C3: in sparsity mode (`rho_b > 0`) the step's returned threshold is
exactly `max(v_thr + (rowsum(s) - 1) * rho_b, 0.025)`, and over any nonempty
sequence of steps no threshold component ends below `0.025`. -/
theorem C3_sparsity_threshold_floor (dt : R) (j v v_thr : Mat b n R)
    (tau_m : R) (rfr : Mat b n R) (refract_T thrGain thrLeak rho_b : R)
    (sticky_spikes : Bool) (v_min : Option R) (i : Fin b) (k : Fin n)
    (js : List (Mat b n R)) (v0 thr0 rfr0 : Mat b n R)
    (hrho : 0 < rho_b) (hjs : js ≠ []) :
    (run_cell dt j v v_thr tau_m rfr refract_T thrGain thrLeak rho_b
        sticky_spikes v_min).threshold i k
      = max (v_thr i k
          + ((∑ m, step_spike dt j v v_thr tau_m rfr refract_T v_min i m) - 1)
            * rho_b) (1 / 40) ∧
    1 / 40 ≤ (run_cell_seq dt tau_m refract_T thrGain thrLeak rho_b
        sticky_spikes v_min js v0 thr0 rfr0).2.1 i k := by
  constructor
  · have h : (run_cell dt j v v_thr tau_m rfr refract_T thrGain thrLeak rho_b
          sticky_spikes v_min).threshold i k
        = if rho_b > 0
          then max (v_thr i k
            + ((∑ m, step_spike dt j v v_thr tau_m rfr refract_T v_min i m) - 1)
              * rho_b) (1 / 40)
          else v_thr i k
            + step_spike dt j v v_thr tau_m rfr refract_T v_min i k * thrGain
            - v_thr i k * thrLeak := rfl
    rw [h, if_pos hrho]
  · exact run_cell_seq_thr_floor dt tau_m refract_T thrGain thrLeak rho_b
      sticky_spikes v_min hrho js i k v0 thr0 rfr0 hjs

/-- A concrete all-zero 1x1 array over `ℚ`, used by witnesses. -/
def z11 : Mat 1 1 ℚ := fun _ _ => 0

/-- A concrete all-one 1x1 array over `ℚ`, used by witnesses. -/
def o11 : Mat 1 1 ℚ := fun _ _ => 1

/-- C3 witness: the sparsity-mode theorem applied at a concrete input. -/
theorem C3_sparsity_threshold_floor_witness :
    (0 : ℚ) < 1 ∧ ([z11] ≠ []) ∧
    ((run_cell (1 : ℚ) z11 z11 z11 1 z11 0 0 0 1 false none).threshold 0 0
        = max (z11 0 0
            + ((∑ m, step_spike (1 : ℚ) z11 z11 z11 1 z11 0 none 0 m) - 1) * 1)
            (1 / 40) ∧
      1 / 40 ≤ (run_cell_seq (1 : ℚ) 1 0 0 0 1 false none
          [z11] z11 z11 z11).2.1 0 0) :=
  ⟨by norm_num, by simp,
    C3_sparsity_threshold_floor 1 z11 z11 z11 1 z11 0 0 0 1 false none 0 0
      [z11] z11 z11 z11 (by norm_num) (by simp)⟩

/-- A 1x1 array holding -1, the negative threshold of the C4 scenario. -/
def m11 : Mat 1 1 ℚ := fun _ _ => -1

/-- First step of the C4 scenario: threshold -1, current 5, the unit is out
of refractory (`rfr = 1 = refract_T`) and spikes. -/
def c4_step1 : CellStep 1 1 ℚ :=
  run_cell 1 (fun _ _ => 5) z11 m11 1 o11 1 0 0 0 false none

/-- Second step of the C4 scenario, fed the state left by `c4_step1`: the
unit is now inside refractory (`rfr = 0 < refract_T = 1`). -/
def c4_step2 : CellStep 1 1 ℚ :=
  run_cell 1 z11 c4_step1.voltage c4_step1.threshold 1 c4_step1.refract
    1 0 0 0 false none

/-- C4 counterexample: with a negative threshold the unit spikes at one step,
its refractory counter is reset to 0, and at the very next step — counter
still 0, below `refract_T = 1` — it spikes again, because the refractory
gate only zeroes the voltage and `0 > v_thr` still holds. -/
theorem C4_counterexample :
    c4_step1.spikes 0 0 = 1 ∧ c4_step1.refract 0 0 = 0 ∧
    c4_step1.refract 0 0 < 1 ∧ c4_step2.spikes 0 0 = 1 := by
  refine ⟨?_, ?_, ?_, ?_⟩ <;>
    norm_num [c4_step1, c4_step2, run_cell, z11, o11, m11]

/-- C4 amended: immediately after a natural spike the returned refractory
counter is 0, and — provided the unit's threshold is nonnegative and any
configured `v_min` floor is at most 0 (the cell's hardcoded floor is -3) —
a natural spike can only occur when the incoming counter has accumulated to
at least `refract_T`; a non-spiking counter accumulates by `dt`. -/
theorem C4_refractory_invariant (dt : R) (j v v_thr : Mat b n R) (tau_m : R)
    (rfr : Mat b n R) (refract_T thrGain thrLeak rho_b : R) (v_min : Option R)
    (i : Fin b) (k : Fin n)
    (hthr : 0 ≤ v_thr i k) (hvm : ∀ x ∈ v_min, x ≤ 0) :
    ((run_cell dt j v v_thr tau_m rfr refract_T thrGain thrLeak rho_b
        false v_min).spikes i k = 1 →
      (run_cell dt j v v_thr tau_m rfr refract_T thrGain thrLeak rho_b
        false v_min).refract i k = 0) ∧
    ((run_cell dt j v v_thr tau_m rfr refract_T thrGain thrLeak rho_b
        false v_min).spikes i k = 1 → refract_T ≤ rfr i k) ∧
    ((run_cell dt j v v_thr tau_m rfr refract_T thrGain thrLeak rho_b
        false v_min).spikes i k = 0 →
      (run_cell dt j v v_thr tau_m rfr refract_T thrGain thrLeak rho_b
        false v_min).refract i k = rfr i k + dt) := by
  have hspike : (run_cell dt j v v_thr tau_m rfr refract_T thrGain thrLeak
        rho_b false v_min).spikes i k
      = step_spike dt j v v_thr tau_m rfr refract_T v_min i k := rfl
  have hrfr : (run_cell dt j v v_thr tau_m rfr refract_T thrGain thrLeak
        rho_b false v_min).refract i k
      = (rfr i k + dt)
        * (1 - step_spike dt j v v_thr tau_m rfr refract_T v_min i k) := rfl
  refine ⟨?_, ?_, ?_⟩
  · intro h1
    rw [hspike] at h1
    rw [hrfr, h1]
    ring
  · intro h1
    rw [hspike] at h1
    by_contra hlt
    push_neg at hlt
    have hmask : step_mask rfr refract_T i k = 0 := by
      simp [step_mask, not_le.mpr hlt]
    have heuler : step_euler dt j v tau_m rfr refract_T i k = 0 := by
      simp [step_euler, hmask]
    have hfl : step_floored dt j v tau_m rfr refract_T v_min i k = 0 := by
      cases v_min with
      | none => simpa [step_floored] using heuler
      | some vm =>
        have hv : vm ≤ 0 := hvm vm rfl
        simp [step_floored, heuler, max_eq_right hv]
    have hz : step_spike dt j v v_thr tau_m rfr refract_T v_min i k = 0 := by
      simp [step_spike, hfl, not_lt.mpr hthr]
    rw [hz] at h1
    exact absurd h1 (by norm_num)
  · intro h0
    rw [hspike] at h0
    rw [hrfr, h0]
    ring

/-- C4 witness: the amended refractory theorem applied at a concrete input
with nonnegative threshold and no configured floor. -/
theorem C4_refractory_invariant_witness :
    (0 : ℚ) ≤ o11 0 0 ∧ (∀ x ∈ (none : Option ℚ), x ≤ 0) ∧
    (((run_cell (1 : ℚ) z11 z11 o11 1 z11 1 0 0 0 false none).spikes 0 0 = 1 →
        (run_cell (1 : ℚ) z11 z11 o11 1 z11 1 0 0 0 false none).refract 0 0
          = 0) ∧
      ((run_cell (1 : ℚ) z11 z11 o11 1 z11 1 0 0 0 false none).spikes 0 0 = 1 →
        (1 : ℚ) ≤ z11 0 0) ∧
      ((run_cell (1 : ℚ) z11 z11 o11 1 z11 1 0 0 0 false none).spikes 0 0 = 0 →
        (run_cell (1 : ℚ) z11 z11 o11 1 z11 1 0 0 0 false none).refract 0 0
          = z11 0 0 + 1)) :=
  ⟨by norm_num [o11], by simp,
    C4_refractory_invariant 1 z11 z11 o11 1 z11 1 0 0 0 none 0 0
      (by norm_num [o11]) (by simp)⟩

/-- Concrete cell parameters for the C1 scenario: no inhibition, unit
membrane constant and resistance, threshold dynamics off. -/
def pC1 : SLIFParams 1 ℝ :=
  { tau_m := 1
    R_m := 1
    refract_T := 1
    thrGain := 0
    thrLeak := 0
    rho_b := 0
    inh_R := 0
    inh_weights := fun _ _ => 0
    thr_persist := false
    sticky_spikes := false }

/-- Concrete cell state for the C1 scenario: zero voltage, out of
refractory, threshold 1. -/
def sC1 : SLIFState 1 1 ℝ :=
  { voltage := fun _ _ => 0
    refract := fun _ _ => 1
    current := none
    surrogate := none
    tols := fun _ _ => 0
    spikes := fun _ _ => 0
    threshold := fun _ _ => 1
    threshold0 := fun _ _ => 1 }

/-- C1 counterexample: driving the C1 cell with current -100 for one step
returns voltage -3 — the constructor's hardcoded `v_min = -3.` floor — while
the unfloored Euler update at the same state evaluates to -100, so the
per-step transition does NOT leave the voltage unfloored. -/
theorem C1_counterexample :
    (advance_state pC1 0 1 (fun _ _ => -100) sC1).voltage 0 0 = -3 ∧
    step_euler (1 : ℝ) (fun _ _ => -100) sC1.voltage pC1.tau_m sC1.refract
        pC1.refract_T 0 0 = -100 ∧
    (-3 : ℝ) ≠ -100 := by
  refine ⟨?_, ?_, by norm_num⟩
  · norm_num [advance_state, run_cell, modify_current, pC1, sC1, v_min_init,
      max_def]
  · norm_num [step_euler, step_mask, pC1, sC1]

/-- C1 amended: the public constructor exposes no `v_min` parameter but
hardcodes `v_min = -3.`, which every `advance_state` step passes to the
integrator, so the returned membrane voltage is always floored: it never
falls below -3, however negative the input current. -/
theorem C1_voltage_floor (p : SLIFParams n ℝ) (t dt : ℝ) (j_in : Mat b n ℝ)
    (s : SLIFState b n ℝ) (i : Fin b) (k : Fin n) :
    -3 ≤ (advance_state p t dt j_in s).voltage i k := by
  have h : (advance_state p t dt j_in s).voltage i k
      = (1 - step_spike dt
            (modify_current j_in s.spikes p.inh_weights p.R_m p.inh_R)
            s.voltage s.threshold p.tau_m s.refract p.refract_T
            (some v_min_init) i k)
        * step_floored dt
            (modify_current j_in s.spikes p.inh_weights p.R_m p.inh_R)
            s.voltage p.tau_m s.refract p.refract_T (some v_min_init) i k :=
    rfl
  have hfl : -3 ≤ step_floored dt
      (modify_current j_in s.spikes p.inh_weights p.R_m p.inh_R)
      s.voltage p.tau_m s.refract p.refract_T (some v_min_init) i k := by
    show -3 ≤ max v_min_init _
    exact le_trans (le_of_eq rfl) (le_max_left _ _)
  rw [h]
  by_cases hs : step_floored dt
      (modify_current j_in s.spikes p.inh_weights p.R_m p.inh_R)
      s.voltage p.tau_m s.refract p.refract_T (some v_min_init) i k
      > s.threshold i k
  · simp only [step_spike, if_pos hs]
    norm_num
  · simp only [step_spike, if_neg hs]
    simpa using hfl

/-- C6: inside one step the sticky-spike override changes only the returned
spike array — voltage, threshold and refractory counters are identical with
the override on or off — while the pinned spikes are exactly what the cell
stores, what the time-of-last-spike tracker consumes, and what the next
step's lateral-inhibition current modulation receives. -/
theorem C6_sticky_frame (p : SLIFParams n ℝ) (t t2 dt dt2 : ℝ)
    (j j2 : Mat b n ℝ) (s : SLIFState b n ℝ) :
    (advance_state { p with sticky_spikes := true } t dt j s).voltage
      = (advance_state { p with sticky_spikes := false } t dt j s).voltage ∧
    (advance_state { p with sticky_spikes := true } t dt j s).threshold
      = (advance_state { p with sticky_spikes := false } t dt j s).threshold ∧
    (advance_state { p with sticky_spikes := true } t dt j s).refract
      = (advance_state { p with sticky_spikes := false } t dt j s).refract ∧
    (advance_state { p with sticky_spikes := true } t dt j s).spikes
      = (run_cell dt (modify_current j s.spikes p.inh_weights p.R_m p.inh_R)
          s.voltage s.threshold p.tau_m s.refract p.refract_T p.thrGain
          p.thrLeak p.rho_b true (some v_min_init)).spikes ∧
    (advance_state { p with sticky_spikes := true } t dt j s).tols
      = update_times t
          (advance_state { p with sticky_spikes := true } t dt j s).spikes
          s.tols ∧
    (advance_state { p with sticky_spikes := true } t2 dt2 j2
        (advance_state { p with sticky_spikes := true } t dt j s)).current
      = some (modify_current j2
          (advance_state { p with sticky_spikes := true } t dt j s).spikes
          p.inh_weights p.R_m p.inh_R) :=
  ⟨rfl, rfl, rfl, rfl, rfl, rfl⟩

/-- C7: at input `j = 1` with the default coefficients the surrogate
evaluates to `c1*c2*sech(c2*j)` — the hyperbolic secant to the FIRST
power — which differs from the documented `c1*c2*sech(c2*j)^2`. -/
theorem C7_surrogate_unsquared :
    (apply_surrogate_dfx (b := 1) (n := 1) (fun _ _ => 1) 0.82 0.08) 0 0
      = 0.82 * 0.08 * (1 / Real.cosh 0.08) ∧
    0.82 * 0.08 * (1 / Real.cosh 0.08)
      ≠ 0.82 * 0.08 * (1 / Real.cosh 0.08) ^ 2 := by
  have hc : (Real.exp ((1 : ℝ) * 0.08) + Real.exp (-((1 : ℝ) * 0.08))) / 2
      = Real.cosh 0.08 := by
    rw [Real.cosh_eq]
    norm_num
  constructor
  · show (1 / ((Real.exp ((1 : ℝ) * 0.08)
        + Real.exp (-((1 : ℝ) * 0.08))) / 2)) * (0.82 * 0.08)
        * (if (1 : ℝ) > 0 then 1 else 0) = _
    rw [if_pos (by norm_num : (1 : ℝ) > 0), hc]
    ring
  · have hpos : 0 < Real.cosh 0.08 := Real.cosh_pos 0.08
    have h1 : 1 < Real.cosh 0.08 :=
      Real.one_lt_cosh.mpr (by norm_num)
    intro heq
    have hne : (0.82 : ℝ) * 0.08 ≠ 0 := by norm_num
    have h2 : (1 / Real.cosh 0.08) = (1 / Real.cosh 0.08) ^ 2 :=
      mul_left_cancel₀ hne heq
    have hx : 0 < 1 / Real.cosh 0.08 := by positivity
    have hx1 : 1 / Real.cosh 0.08 < 1 := by
      rw [div_lt_one hpos]
      exact h1
    have hlt : (1 / Real.cosh 0.08) ^ 2 < 1 / Real.cosh 0.08 := by
      calc (1 / Real.cosh 0.08) ^ 2
          = (1 / Real.cosh 0.08) * (1 / Real.cosh 0.08) := sq (1 / Real.cosh 0.08)
        _ < 1 * (1 / Real.cosh 0.08) := mul_lt_mul_of_pos_right hx1 hx
        _ = 1 / Real.cosh 0.08 := one_mul _
    exact absurd h2 (ne_of_gt hlt)

end SLIF
